import Mathlib

/-!
Verification development for the CS315 SocialNetwork program
(`User.cpp`, `SocialNetwork.cpp`).

The C++ code is shallowly embedded: machine `unsigned int` values become
`Nat` (with the `int -> unsigned int` narrowing made explicit where the code
performs it), `std::string` becomes `String`, `std::vector` becomes `List`,
and every aborting path (a failed `assert`, `exit(1)`, an uncaught `std::stoi`
exception, or an out-of-bounds `std::vector` access) becomes an explicit
error value of an `Except`/`Option` result or a dedicated result constructor,
so that which abort happens stays observable.
-/

/-! ## User data model (`User.h` / `User.cpp`) -/

/-- Translation of the `User` class data members (`User.h`): `id` is an
`unsigned int`, the three text fields are `std::string`, and `follows` is a
`std::vector<unsigned int>`. -/
structure User where
  id : Nat
  name : String
  location : String
  pic_url : String
  follows : List Nat
  deriving DecidableEq

/-- The fixed default picture URL assigned by
`User::setDefaultAttributesWhenEmpty` (`User.cpp:760`). -/
def defaultPicUrl : String :=
  "https://i.pinimg.com/236x/1c/8b/b2/1c8bb212c3fac9c3393b663c0ed9f6cb.jpg"

/-- Translation of `User::setDefaultAttributesWhenEmpty` (`User.cpp:744`):
if `pic_url` is empty it is replaced by the fixed default URL. -/
def User.setDefaultAttributesWhenEmpty (u : User) : User :=
  if u.pic_url.isEmpty then { u with pic_url := defaultPicUrl } else u

/-- Translation of the default constructor `User::User()` (`User.cpp:26`):
id is set to `0` and the three strings to `""`; the `follows` vector is not
touched, so it stays default-constructed (empty). No default attributes are
filled in. -/
def User.mkDefault : User :=
  { id := 0, name := "", location := "", pic_url := "", follows := [] }

/-- Translation of the full-argument constructor
`User::User(unsigned int, string, string, string, vector<unsigned int>)`
(`User.cpp:46`): stores every argument and then calls
`setDefaultAttributesWhenEmpty`. -/
def User.mkFull (id : Nat) (name location pic_url : String)
    (follows : List Nat) : User :=
  User.setDefaultAttributesWhenEmpty
    { id := id, name := name, location := location, pic_url := pic_url,
      follows := follows }

/-- Translation of `User::isValid` (`User.cpp:303`): a user is valid iff
`id > 0` and the name is non-empty. -/
def User.isValid (u : User) : Bool :=
  decide (0 < u.id) && !u.name.isEmpty

/-- Translation of `User::getId` (`User.cpp:319`). The accessor asserts
`isValid()`; the failing assertion is modelled by `none`. -/
def User.getId (u : User) : Option Nat :=
  if u.isValid then some u.id else none

/-- Translation of `User::getName` (`User.cpp:336`), with the validity
assertion modelled by `none`. -/
def User.getName (u : User) : Option String :=
  if u.isValid then some u.name else none

/-- Translation of `User::getLocation` (`User.cpp:354`), with the validity
assertion modelled by `none`. -/
def User.getLocation (u : User) : Option String :=
  if u.isValid then some u.location else none

/-- Translation of `User::getPicUrl` (`User.cpp:374`), with the validity
assertion modelled by `none`. -/
def User.getPicUrl (u : User) : Option String :=
  if u.isValid then some u.pic_url else none

/-- Translation of `User::getFollows` (`User.cpp:395`), with the validity
assertion modelled by `none`. -/
def User.getFollows (u : User) : Option (List Nat) :=
  if u.isValid then some u.follows else none

/-- Translation of `User::getFollowsSize` (`User.cpp:413`), with the validity
assertion modelled by `none`. -/
def User.getFollowsSize (u : User) : Option Nat :=
  if u.isValid then some u.follows.length else none

/-- Translation of `User::getFollowsIdAt` (`User.cpp:431`): asserts validity,
then reads `follows.at(i)`; both the failing assertion and the out-of-range
exception of `at` are modelled by `none`. -/
def User.getFollowsIdAt (u : User) (i : Nat) : Option Nat :=
  if u.isValid then u.follows[i]? else none

/-! ## `std::stoi` and the attribute parser -/

/-- Failure modes of `std::stoi`: `std::invalid_argument` when no digits can
be consumed, `std::out_of_range` when the value does not fit in `int`. -/
inductive StoiErr where
  | invalidArgument
  | outOfRange
  deriving DecidableEq

/-- Whitespace characters skipped by `std::stoi` (the `"C"` locale
`isspace`). -/
def isSpaceChar (c : Char) : Bool :=
  c == ' ' || c == '\t' || c == '\n' || c == '\x0b' || c == '\x0c' || c == '\r'

/-- Numeric value of a digit string (most significant digit first). -/
def digitsVal (ds : List Char) : Nat :=
  ds.foldl (fun acc c => acc * 10 + (c.toNat - 48)) 0

/-- Consumes the optional single leading sign accepted by `std::stoi`,
returning the sign and the rest of the input. -/
def signSplit : List Char → Int × List Char
  | [] => (1, [])
  | c :: r =>
    if c = '-' then (-1, r) else if c = '+' then (1, r) else (1, c :: r)

/-- `INT_MAX` for the 32-bit `int` used by `std::stoi`. -/
def intMax : Int := 2147483647

/-- `INT_MIN` for the 32-bit `int` used by `std::stoi`. -/
def intMin : Int := -2147483648

/-- Model of `std::stoi` on the full input string: skip leading whitespace,
consume an optional sign, then a maximal run of decimal digits. No digits
means `std::invalid_argument`; a value outside `int` means
`std::out_of_range`; otherwise the parsed value is returned (trailing
non-digit characters are ignored, as `stoi` ignores them). -/
def stoi (cs : List Char) : Except StoiErr Int :=
  let trimmed := cs.dropWhile isSpaceChar
  let sc := signSplit trimmed
  let ds := sc.2.takeWhile Char.isDigit
  if ds.isEmpty then .error .invalidArgument
  else
    let v : Int := sc.1 * (digitsVal ds : Int)
    if v < intMin ∨ intMax < v then .error .outOfRange else .ok v

/-- The `int` → `unsigned int` conversion performed when a `stoi` result is
stored in an `unsigned int` (the `id` member or a `follows` entry): reduction
modulo 2^32. -/
def toUnsignedInt (i : Int) : Nat :=
  (i % 4294967296).toNat

/-- Aborting outcomes of record building (`User::setAttribute` and
`User::stringArrayToUnsignedIntVector`): the two `assert`s, the `exit(1)` on
an unknown title, and the two uncaught `std::stoi` exceptions. -/
inductive BuildError where
  | emptyTitle
  | emptyAttributeValue
  | unrecognizedAttribute
  | invalidIdentifier
  | outOfRange
  deriving DecidableEq

/-- A `stoi` call whose result is pushed into a `vector<unsigned int>`
(`User.cpp:684`), with `std::invalid_argument` surfacing as the spec's
`InvalidIdentifier` condition. -/
def stoiAsUnsigned (cs : List Char) : Except BuildError Nat :=
  match stoi cs with
  | .ok v => .ok (toUnsignedInt v)
  | .error .invalidArgument => .error .invalidIdentifier
  | .error .outOfRange => .error .outOfRange

/-- Model of `arraySS.ignore(numeric_limits<streamsize>::max(), '"')`
(`User.cpp:682`): discard characters up to and including the next `"`. -/
def dropThroughQuote : List Char → List Char
  | [] => []
  | c :: cs => if c = '"' then cs else dropThroughQuote cs

/-- Model of `getline(arraySS, val_str, '"')` (`User.cpp:683`): the extracted
characters before the next `"` together with the remaining input after that
delimiter. -/
def takeUntilQuote : List Char → List Char × List Char
  | [] => ([], [])
  | c :: cs =>
    if c = '"' then ([], cs)
    else
      let p := takeUntilQuote cs
      (c :: p.1, p.2)

/-- Length bound used for the termination of the array-parsing loop. -/
def dropThroughQuote_length_le :
    ∀ cs : List Char, (dropThroughQuote cs).length ≤ cs.length := by
  intro cs
  induction cs with
  | nil => simp [dropThroughQuote]
  | cons c cs ih =>
    simp only [dropThroughQuote]
    split
    · simp
    · exact Nat.le_trans ih (Nat.le_succ _)

/-- Length bound used for the termination of the array-parsing loop. -/
def takeUntilQuote_snd_length_le :
    ∀ cs : List Char, (takeUntilQuote cs).2.length ≤ cs.length := by
  intro cs
  induction cs with
  | nil => simp [takeUntilQuote]
  | cons c cs ih =>
    simp only [takeUntilQuote]
    split
    · simp
    · simpa using Nat.le_trans ih (Nat.le_succ _)

/-- Translation of the `while (arraySS.peek() == ',' || arraySS.peek() == '"')`
loop of `User::stringArrayToUnsignedIntVector` (`User.cpp:680`): while the
next character is `,` or `"`, discard input through the next `"`, extract the
characters before the following `"`, convert them with `stoi`, and push the
converted value. A `stoi` failure aborts the loop (an uncaught exception in
the C++). -/
def stringArrayLoop (cs : List Char) : Except BuildError (List Nat) :=
  match cs with
  | [] => .ok []
  | c :: cs' =>
    if c = ',' ∨ c = '"' then
      let afterQ := dropThroughQuote (c :: cs')
      let item := takeUntilQuote afterQ
      match stoiAsUnsigned item.1 with
      | .error e => .error e
      | .ok n =>
        match stringArrayLoop item.2 with
        | .error e => .error e
        | .ok arr => .ok (n :: arr)
    else .ok []
termination_by cs.length
decreasing_by
  simp only [dropThroughQuote]
  split
  · exact Nat.lt_succ_of_le (takeUntilQuote_snd_length_le _)
  · exact Nat.lt_succ_of_le
      (Nat.le_trans (takeUntilQuote_snd_length_le _) (dropThroughQuote_length_le _))

/-- Translation of `User::stringArrayToUnsignedIntVector` (`User.cpp:647`). -/
def User.stringArrayToUnsignedIntVector (s : String) :
    Except BuildError (List Nat) :=
  stringArrayLoop s.data

/-- Translation of `User::setAttribute` (`User.cpp:594`). The code order is
preserved: `assert(!title.empty())`, the `follows` branch (which tolerates an
empty raw value), `assert(!data.empty())`, the four scalar branches, and
finally `exit(1)` for an unrecognized title. -/
def User.setAttribute (u : User) (title : String) (data : String) :
    Except BuildError User :=
  if title = "" then .error .emptyTitle
  else if title = "follows" then
    match User.stringArrayToUnsignedIntVector data with
    | .ok arr => .ok { u with follows := arr }
    | .error e => .error e
  else if data = "" then .error .emptyAttributeValue
  else if title = "id_str" then
    match stoi data.data with
    | .ok v => .ok { u with id := toUnsignedInt v }
    | .error .invalidArgument => .error .invalidIdentifier
    | .error .outOfRange => .error .outOfRange
  else if title = "name" then .ok { u with name := data }
  else if title = "pic_url" then .ok { u with pic_url := data }
  else if title = "location" then .ok { u with location := data }
  else .error .unrecognizedAttribute

/-- Member state of a `User` at the start of `User::User(stringstream&)`
(`User.cpp:88`): the strings and the vector are default-constructed (empty);
the `unsigned int id` is left uninitialized by the C++ and is modelled as
`0`. -/
def User.streamInit : User :=
  { id := 0, name := "", location := "", pic_url := "", follows := [] }

/-- Translation of the attribute-processing part of `User::User(stringstream&)`
(`User.cpp:117`): each extracted `(title, data)` pair is fed to
`setAttribute`, and afterwards `setDefaultAttributesWhenEmpty` runs once. -/
def User.fromAttributes (pairs : List (String × String)) :
    Except BuildError User :=
  (List.foldlM (fun u p => User.setAttribute u p.1 p.2) User.streamInit
      pairs).map User.setDefaultAttributesWhenEmpty

/-! ## Record store assembly (`SocialNetwork::SocialNetwork`) -/

/-- Translation of the ingestion loop's sort-detection (`SocialNetwork.cpp:104`):
for each record in arrival order, compare its id with `nextExpectedID`
(which starts at 1 and is incremented for every record) and accumulate the
`userSortingNeeded` flag. -/
def ingestFlag : List User → Nat → Bool → Bool
  | [], _, flag => flag
  | u :: rest, expected, flag =>
    ingestFlag rest (expected + 1) (flag || decide (u.id ≠ expected))

/-- The `userSortingNeeded` flag after the whole ingestion loop
(`SocialNetwork.cpp:84`). -/
def userSortingNeeded (records : List User) : Bool :=
  ingestFlag records 1 false

/-- The ordering used by `sort(users.begin(), users.end())`, induced by
`User::operator<` (`User.cpp:184`), which compares ids only. -/
def userLE (a b : User) : Prop := a.id ≤ b.id

instance : DecidableRel userLE := fun a b => Nat.decLe a.id b.id

instance : IsTotal User userLE := ⟨fun a b => Nat.le_total a.id b.id⟩

instance : IsTrans User userLE := ⟨fun _ _ _ h1 h2 => Nat.le_trans h1 h2⟩

/-- Translation of the conditional sort (`SocialNetwork.cpp:117`): if the
flag is set the user array is sorted by id, otherwise it is left unchanged.
The comparison sort is modelled by `List.insertionSort` over the
`operator<`-induced order on ids. -/
def assembleUsers (records : List User) : List User :=
  if userSortingNeeded records then List.insertionSort userLE records
  else records

/-! ## Relationship matrix (`SocialNetwork.cpp`) -/

/-- Translation of the inner matrix loop (`SocialNetwork.cpp:135`): for each
follows entry `f`, execute `row[f - 1] = true`. The `unsigned int` index
`f - 1` is in bounds only when `1 ≤ f` and `f - 1 < n`; any other entry makes
the unchecked `vector<bool>::operator[]` write undefined behaviour, modelled
by `none`. -/
def setFollows (n : Nat) : List Bool → List Nat → Option (List Bool)
  | row, [] => some row
  | row, f :: fs =>
    if 1 ≤ f ∧ f - 1 < n then setFollows n (row.set (f - 1) true) fs
    else none

/-- One row of the relationship matrix (`SocialNetwork.cpp:131`): a row of
`n` `false` entries, updated by `setFollows` for the user's follows list. -/
def buildRow (n : Nat) (u : User) : Option (List Bool) :=
  setFollows n (List.replicate n false) u.follows

/-- The full relationship matrix (`SocialNetwork.cpp:128`): one row per user,
in user-array order. -/
def buildMatrix (n : Nat) : List User → Option (List (List Bool))
  | [] => some []
  | u :: us =>
    match buildRow n u, buildMatrix n us with
    | some row, some rows => some (row :: rows)
    | _, _ => none

/-- Translation of the `SocialNetwork` data members (`SocialNetwork.h`). -/
structure SocialNetwork where
  numUsers : Nat
  users : List User
  followerRelationShips : List (List Bool)
  userNames : List String
  deriving DecidableEq

/-- Translation of the `SocialNetwork(const string&)` constructor
(`SocialNetwork.cpp:43`), starting from the already-built records in arrival
order: every record must pass the `assert(newUser.isValid())` of line 100;
the records are conditionally sorted; the relationship matrix and the
`userNames` array are built from the sorted records; `numUsers` is the number
of records. `none` models an aborted construction (a failed assertion or an
out-of-bounds matrix write). -/
def SocialNetwork.build (records : List User) : Option SocialNetwork :=
  if records.all User.isValid then
    match buildMatrix records.length (assembleUsers records) with
    | some m =>
      some { numUsers := records.length, users := assembleUsers records,
             followerRelationShips := m,
             userNames := (assembleUsers records).map User.name }
    | none => none
  else none

/-- Outcome of a `SocialNetwork::isFollowing` call: a returned boolean, the
failing `assert(followerID > 0 && followedID > 0)` (`SocialNetwork.cpp:227`),
or an out-of-bounds `vector::operator[]` access (undefined behaviour in the
C++, which performs no bounds check). -/
inductive QueryResult where
  | ok (b : Bool)
  | assertViolation
  | outOfBounds
  deriving DecidableEq

/-- Translation of `SocialNetwork::isFollowing` (`SocialNetwork.cpp:211`):
assert both ids positive, then read
`followerRelationShips[followerID - 1][followedID - 1]`. -/
def SocialNetwork.isFollowing (net : SocialNetwork)
    (followerID followedID : Nat) : QueryResult :=
  if 0 < followerID ∧ 0 < followedID then
    match net.followerRelationShips[followerID - 1]? with
    | some row =>
      match row[followedID - 1]? with
      | some b => .ok b
      | none => .outOfBounds
    | none => .outOfBounds
  else .assertViolation

/-- One iteration of the scan loop of
`SocialNetwork::getFollowerAndMutualsFromId` (`SocialNetwork.cpp:198`):
skip `otherID == currID`; otherwise query `isFollowing(otherID, currID)` and,
when it holds, append `otherID` to the followers and additionally query
`isFollowing(currID, otherID)` for the mutuals. A non-returning query aborts
the whole computation. -/
def famStep (net : SocialNetwork) (currID : Nat)
    (acc : Option (List Nat × List Nat)) (otherID : Nat) :
    Option (List Nat × List Nat) :=
  match acc with
  | none => none
  | some (fs, ms) =>
    if currID ≠ otherID then
      match net.isFollowing otherID currID with
      | .ok true =>
        match net.isFollowing currID otherID with
        | .ok true => some (fs ++ [otherID], ms ++ [otherID])
        | .ok false => some (fs ++ [otherID], ms)
        | _ => none
      | .ok false => some (fs, ms)
      | _ => none
    else some (fs, ms)

/-- Translation of `SocialNetwork::getFollowerAndMutualsFromId`
(`SocialNetwork.cpp:178`): scan `otherID` over `1..numUsers` in ascending
order, starting from the empty vectors the callers pass in. -/
def SocialNetwork.getFollowerAndMutualsFromId (net : SocialNetwork)
    (currID : Nat) : Option (List Nat × List Nat) :=
  (List.range' 1 net.numUsers).foldl (famStep net currID) (some ([], []))

/-! ## Witness fixtures: concrete records and networks -/

/-- Concrete record 1 of the spec's three-user scenario. -/
def wUser1 : User := User.mkFull 1 "Alice" "Here" "" [2, 3]

/-- Concrete record 2 of the spec's three-user scenario. -/
def wUser2 : User := User.mkFull 2 "Bob" "" "http://pic.example/b.jpg" [1]

/-- Concrete record 3 of the spec's three-user scenario. -/
def wUser3 : User := User.mkFull 3 "Carol" "" "http://pic.example/c.jpg" []

/-- The three-user scenario records in ascending id order. -/
def wRecords : List User := [wUser1, wUser2, wUser3]

/-- The same records arriving out of id order. -/
def wShuffled : List User := [wUser2, wUser1, wUser3]

/-- The network the constructor builds from `wRecords`. -/
def wNet : SocialNetwork :=
  { numUsers := 3, users := wRecords,
    followerRelationShips :=
      [[false, true, true], [true, false, false], [false, false, false]],
    userNames := ["Alice", "Bob", "Carol"] }

/-- A single user who claims to follow themselves (a malformed self-follow
accepted by the parser). -/
def sUser : User := User.mkFull 1 "Selfie" "" "http://pic.example/s.jpg" [1]

/-- The network built from the single self-following user. -/
def sNet : SocialNetwork :=
  { numUsers := 1, users := [sUser], followerRelationShips := [[true]],
    userNames := ["Selfie"] }

/-- A single user with an empty follows list. -/
def oneUser : User := User.mkFull 1 "Solo" "" "http://pic.example/o.jpg" []

/-- The network built from the single user `oneUser`. -/
def oneNet : SocialNetwork :=
  { numUsers := 1, users := [oneUser], followerRelationShips := [[false]],
    userNames := ["Solo"] }

/-! ## Render helpers for follows-array inputs -/

/-- Builds the raw value of a follows array from its quoted entries:
`"s1","s2",...,"sn"` (the text between `[` and `]` in the input format). -/
def renderChars : List String → List Char
  | [] => []
  | s :: ss =>
    '"' :: s.data ++ '"' :: (if ss.isEmpty then [] else ',' :: renderChars ss)

/-- The raw follows value as a string. -/
def renderFollowsValue (ss : List String) : String :=
  { data := renderChars ss }

/-- A well-formed follows entry: a non-empty all-digit string whose value
fits in `int` (so `stoi` accepts it without exception). -/
def goodDigitStr (s : String) : Prop :=
  s.data ≠ [] ∧ s.data.all Char.isDigit = true ∧ digitsVal s.data < 2147483648

instance : DecidablePred goodDigitStr := fun s => by
  unfold goodDigitStr
  infer_instance

/-! ## Basic lemmas -/

/-- A non-empty `String` is not `isEmpty`. -/
theorem string_isEmpty_false {s : String} (h : s ≠ "") : s.isEmpty = false := by
  rw [Bool.eq_false_iff]
  intro hh
  exact h ((String.isEmpty_iff s).mp hh)

/-- The default picture URL is a non-empty string. -/
theorem defaultPicUrl_ne_empty : defaultPicUrl ≠ "" := by decide

/-- `setAttribute` leaves `pic_url` unchanged whenever the title is not
`pic_url` and the call succeeds. -/
theorem setAttribute_preserves_pic_url {u u' : User} {title data : String}
    (hne : title ≠ "pic_url")
    (h : User.setAttribute u title data = .ok u') : u'.pic_url = u.pic_url := by
  unfold User.setAttribute at h
  by_cases h0 : title = ""
  · rw [if_pos h0] at h
    exact Except.noConfusion h
  rw [if_neg h0] at h
  by_cases h1 : title = "follows"
  · rw [if_pos h1] at h
    cases hr : User.stringArrayToUnsignedIntVector data with
    | ok arr =>
      rw [hr] at h
      injection h with h'
      rw [← h']
    | error e =>
      rw [hr] at h
      exact Except.noConfusion h
  rw [if_neg h1] at h
  by_cases h2 : data = ""
  · rw [if_pos h2] at h
    exact Except.noConfusion h
  rw [if_neg h2] at h
  by_cases h3 : title = "id_str"
  · rw [if_pos h3] at h
    cases hr : stoi data.data with
    | ok v =>
      rw [hr] at h
      injection h with h'
      rw [← h']
    | error e =>
      rw [hr] at h
      cases e <;> exact Except.noConfusion h
  rw [if_neg h3] at h
  by_cases h4 : title = "name"
  · rw [if_pos h4] at h
    injection h with h'
    rw [← h']
  rw [if_neg h4] at h
  rw [if_neg hne] at h
  by_cases h5 : title = "location"
  · rw [if_pos h5] at h
    injection h with h'
    rw [← h']
  rw [if_neg h5] at h
  exact Except.noConfusion h

/-- A successful `setAttribute` fold over titles other than `pic_url` leaves
`pic_url` unchanged. -/
theorem foldl_setAttribute_pic_url (pairs : List (String × String)) :
    ∀ u0 u', (∀ p ∈ pairs, p.1 ≠ "pic_url") →
      List.foldlM (fun u p => User.setAttribute u p.1 p.2) u0 pairs = .ok u' →
      u'.pic_url = u0.pic_url := by
  induction pairs with
  | nil =>
    intro u0 u' _ h
    simp only [List.foldlM_nil] at h
    cases h
    rfl
  | cons p ps ih =>
    intro u0 u' hne h
    rw [List.foldlM_cons] at h
    cases hsa : User.setAttribute u0 p.1 p.2 with
    | error e =>
      rw [hsa] at h
      exact Except.noConfusion h
    | ok u1 =>
      rw [hsa] at h
      simp only [Bind.bind, Except.bind] at h
      have h1 := ih u1 u' (fun q hq => hne q (List.mem_cons_of_mem _ hq)) h
      rw [h1, setAttribute_preserves_pic_url (hne p (List.mem_cons_self _ _)) hsa]

/-- Whatever user comes out of `setDefaultAttributesWhenEmpty` has a
non-empty picture URL. -/
theorem setDefault_pic_url_ne_empty (u : User) :
    (User.setDefaultAttributesWhenEmpty u).pic_url ≠ "" := by
  unfold User.setDefaultAttributesWhenEmpty
  split
  · exact defaultPicUrl_ne_empty
  · intro hcon
    rename_i hemp
    rw [hcon] at hemp
    exact hemp rfl

/-! ## Claim C9 -/

/-- C9: a `User` built by the full-argument constructor or the stream
constructor gets the fixed default picture URL exactly when `pic_url` was
never set or was passed empty, and in every case ends up with a non-empty
`pic_url`. -/
theorem pic_url_default_spec :
    (∀ i n l f, (User.mkFull i n l "" f).pic_url = defaultPicUrl) ∧
    (∀ i n l p f, p ≠ "" → (User.mkFull i n l p f).pic_url = p) ∧
    (∀ i n l p f, (User.mkFull i n l p f).pic_url ≠ "") ∧
    (∀ pairs u, User.fromAttributes pairs = .ok u →
       u.pic_url ≠ "" ∧
       ((∀ p ∈ pairs, p.1 ≠ "pic_url") → u.pic_url = defaultPicUrl)) := by
  refine ⟨?_, ?_, ?_, ?_⟩
  · intro i n l f
    rfl
  · intro i n l p f hp
    simp [User.mkFull, User.setDefaultAttributesWhenEmpty, string_isEmpty_false hp]
  · intro i n l p f
    exact setDefault_pic_url_ne_empty _
  · intro pairs u h
    unfold User.fromAttributes at h
    cases hf : List.foldlM (fun u p => User.setAttribute u p.1 p.2) User.streamInit pairs with
    | error e =>
      rw [hf] at h
      exact Except.noConfusion h
    | ok u1 =>
      rw [hf] at h
      simp only [Except.map] at h
      cases h
      constructor
      · exact setDefault_pic_url_ne_empty u1
      · intro hnp
        have h1 : u1.pic_url = User.streamInit.pic_url :=
          foldl_setAttribute_pic_url pairs User.streamInit u1 hnp hf
        unfold User.setDefaultAttributesWhenEmpty
        rw [h1]
        rfl

/-- Witness for C9: a user built with an empty `pic_url` argument, and a user
built from attribute pairs that never mention `pic_url`, both end up with the
default picture URL. -/
theorem pic_url_default_spec_witness :
    (User.mkFull 1 "A" "" "" []).pic_url = defaultPicUrl ∧
    ({ id := 0, name := "Bob", location := "", pic_url := defaultPicUrl,
       follows := [] } : User).pic_url = defaultPicUrl :=
  ⟨pic_url_default_spec.1 1 "A" "" [],
   (pic_url_default_spec.2.2.2 [("name", "Bob")]
      { id := 0, name := "Bob", location := "", pic_url := defaultPicUrl,
        follows := [] } rfl).2 (by decide)⟩

/-! ## Claim C7 -/

/-- C7: any attribute title outside the fixed vocabulary (with the title and
the raw value non-empty, so that neither preceding `assert` fires first)
makes `setAttribute` report the unrecognized-attribute failure, and that
failure is fatal for the whole record build: whatever well-formed pairs came
before and whatever pairs would come after, the stream constructor reports
the same failure and yields no record. -/
theorem setAttribute_unrecognized_fatal (title data : String)
    (h0 : title ≠ "") (h1 : title ≠ "id_str") (h2 : title ≠ "name")
    (h3 : title ≠ "location") (h4 : title ≠ "pic_url") (h5 : title ≠ "follows")
    (h6 : data ≠ "") :
    (∀ u, User.setAttribute u title data = .error .unrecognizedAttribute) ∧
    (∀ pre post u',
       List.foldlM (fun u p => User.setAttribute u p.1 p.2) User.streamInit pre
         = .ok u' →
       User.fromAttributes (pre ++ (title, data) :: post)
         = .error .unrecognizedAttribute) := by
  have hmain : ∀ u, User.setAttribute u title data
      = .error .unrecognizedAttribute := by
    intro u
    simp [User.setAttribute, h0, h1, h2, h3, h4, h5, h6]
  refine ⟨hmain, ?_⟩
  intro pre post u' hpre
  unfold User.fromAttributes
  rw [List.foldlM_append, hpre]
  simp only [Bind.bind, Except.bind, List.foldlM_cons, hmain u']
  rfl

/-- Witness for C7: the title `email` in the middle of an otherwise
well-formed record aborts the build with the unrecognized-attribute
failure. -/
theorem setAttribute_unrecognized_fatal_witness :
    User.fromAttributes [("name", "Bob"), ("email", "x"), ("location", "Z")]
      = .error .unrecognizedAttribute :=
  (setAttribute_unrecognized_fatal "email" "x" (by decide) (by decide)
      (by decide) (by decide) (by decide) (by decide) (by decide)).2
    [("name", "Bob")] [("location", "Z")]
    { id := 0, name := "Bob", location := "", pic_url := "", follows := [] }
    rfl

/-! ## Claim C10 -/

/-- C10: a default-constructed `User` has id 0, empty name, location and
picture URL (the default picture URL is not applied), is invalid, and every
accessor's validity assertion fails on it. -/
theorem default_user_spec :
    User.mkDefault.id = 0 ∧ User.mkDefault.name = "" ∧
    User.mkDefault.location = "" ∧ User.mkDefault.pic_url = "" ∧
    User.isValid User.mkDefault = false ∧
    User.getId User.mkDefault = none ∧ User.getName User.mkDefault = none ∧
    User.getLocation User.mkDefault = none ∧
    User.getPicUrl User.mkDefault = none ∧
    User.getFollows User.mkDefault = none ∧
    User.getFollowsSize User.mkDefault = none ∧
    ∀ i, User.getFollowsIdAt User.mkDefault i = none :=
  ⟨rfl, rfl, rfl, rfl, rfl, rfl, rfl, rfl, rfl, rfl, rfl, fun _ => rfl⟩

/-- A decimal digit is not `stoi` whitespace. -/
theorem digit_not_space {c : Char} (h : c.isDigit = true) :
    isSpaceChar c = false := by
  have h1 : c ≠ ' ' := by intro e; subst e; exact absurd h (by decide)
  have h2 : c ≠ '\t' := by intro e; subst e; exact absurd h (by decide)
  have h3 : c ≠ '\n' := by intro e; subst e; exact absurd h (by decide)
  have h4 : c ≠ '\x0b' := by intro e; subst e; exact absurd h (by decide)
  have h5 : c ≠ '\x0c' := by intro e; subst e; exact absurd h (by decide)
  have h6 : c ≠ '\r' := by intro e; subst e; exact absurd h (by decide)
  simp [isSpaceChar, beq_eq_false_iff_ne, h1, h2, h3, h4, h5, h6]

/-- A decimal digit is not the minus sign. -/
theorem digit_ne_minus {c : Char} (h : c.isDigit = true) : c ≠ '-' := by
  intro e; subst e; exact absurd h (by decide)

/-- A decimal digit is not the plus sign. -/
theorem digit_ne_plus {c : Char} (h : c.isDigit = true) : c ≠ '+' := by
  intro e; subst e; exact absurd h (by decide)

/-- A decimal digit is not a double quote. -/
theorem digit_ne_quote {c : Char} (h : c.isDigit = true) : c ≠ '"' := by
  intro e; subst e; exact absurd h (by decide)

/-- On a non-empty all-digit string whose value fits in `int`, `stoi`
returns the digit value. -/
theorem stoi_all_digits {ds : List Char} (hne : ds ≠ [])
    (hdig : ds.all Char.isDigit = true) (hlt : digitsVal ds < 2147483648) :
    stoi ds = .ok (digitsVal ds) := by
  have hall := List.all_eq_true.mp hdig
  have hdw : ds.dropWhile isSpaceChar = ds := by
    cases ds with
    | nil => rfl
    | cons d tl =>
      rw [List.dropWhile_cons,
        digit_not_space (hall d (List.mem_cons_self _ _))]
      simp
  have hss : signSplit ds = (1, ds) := by
    cases ds with
    | nil => exact absurd rfl hne
    | cons d tl =>
      simp only [signSplit]
      rw [if_neg (digit_ne_minus (hall d (List.mem_cons_self _ _))),
        if_neg (digit_ne_plus (hall d (List.mem_cons_self _ _)))]
  have htw : ds.takeWhile Char.isDigit = ds := List.takeWhile_eq_self_iff.mpr hall
  have hemp : ds.isEmpty = false := by
    cases ds with
    | nil => exact absurd rfl hne
    | cons d tl => rfl
  have hnlt : ¬((digitsVal ds : Int) < intMin ∨
      intMax < (digitsVal ds : Int)) := by
    push_neg
    constructor
    · have hpos : (0 : Int) ≤ (digitsVal ds : Int) := Int.ofNat_nonneg _
      unfold intMin
      omega
    · unfold intMax
      omega
  simp only [stoi, hdw, hss, htw, hemp, Bool.false_eq_true, if_false,
    if_neg hnlt, one_mul]

/-- The unsigned-store variant of `stoi_all_digits`: the narrowing
conversion is the identity below 2^31. -/
theorem stoiAsUnsigned_all_digits {ds : List Char} (hne : ds ≠ [])
    (hdig : ds.all Char.isDigit = true) (hlt : digitsVal ds < 2147483648) :
    stoiAsUnsigned ds = .ok (digitsVal ds) := by
  unfold stoiAsUnsigned
  rw [stoi_all_digits hne hdig hlt]
  have h1 : ((digitsVal ds : Int)) % 4294967296 = (digitsVal ds : Int) :=
    Int.emod_eq_of_lt (Int.ofNat_nonneg _) (by omega)
  simp [toUnsignedInt, h1]

/-- `getline` up to a quote splits a quote-free prefix exactly at the
delimiter. -/
theorem takeUntilQuote_split {xs : List Char} (h : '"' ∉ xs) :
    ∀ r, takeUntilQuote (xs ++ '"' :: r) = (xs, r) := by
  induction xs with
  | nil =>
    intro r
    simp [takeUntilQuote]
  | cons c cs ih =>
    intro r
    have hc : c ≠ '"' := fun e => h (e ▸ List.mem_cons_self _ _)
    have hcs : '"' ∉ cs := fun m => h (List.mem_cons_of_mem _ m)
    simp only [List.cons_append, takeUntilQuote]
    rw [if_neg hc]
    simp only [List.append_eq]
    rw [ih hcs r]

/-- One iteration of the array-parsing loop on an input that starts with a
complete quoted item. -/
theorem stringArrayLoop_quoted {body : List Char} (hq : '"' ∉ body)
    (rest : List Char) :
    stringArrayLoop ('"' :: (body ++ '"' :: rest)) =
      match stoiAsUnsigned body with
      | .error e => .error e
      | .ok n =>
        match stringArrayLoop rest with
        | .error e => .error e
        | .ok arr => .ok (n :: arr) := by
  rw [stringArrayLoop]
  rw [if_pos (Or.inr rfl)]
  simp only [dropThroughQuote, if_pos rfl, if_true]
  rw [takeUntilQuote_split hq rest]

/-- A leading comma before a quoted item is skipped by the loop's
`ignore`-through-quote step. -/
theorem stringArrayLoop_comma (cs : List Char) :
    stringArrayLoop (',' :: '"' :: cs) = stringArrayLoop ('"' :: cs) := by
  rw [stringArrayLoop]
  rw [if_pos (Or.inl rfl)]
  conv_rhs => rw [stringArrayLoop]
  rw [if_pos (Or.inr rfl)]
  simp only [dropThroughQuote, if_pos rfl, if_true]
  have : (',' : Char) = '"' ↔ False := by simp
  simp [this]

/-- Unfolding of `renderChars` on a non-empty entry list. -/
theorem renderChars_cons (s : String) (ss : List String) :
    renderChars (s :: ss) =
      '"' :: (s.data ++ '"' :: (if ss.isEmpty then [] else ',' :: renderChars ss)) := by
  simp [renderChars]

/-- A well-formed digit entry contains no quote character. -/
theorem goodDigitStr_no_quote {s : String} (h : goodDigitStr s) :
    '"' ∉ s.data := by
  intro hm
  exact digit_ne_quote (List.all_eq_true.mp h.2.1 _ hm) rfl

/-- The parsing loop maps a rendered list of well-formed digit entries to
their values, in input order. -/
theorem stringArrayLoop_render_good :
    ∀ ss : List String, (∀ s ∈ ss, goodDigitStr s) →
      stringArrayLoop (renderChars ss) =
        .ok (ss.map (fun s => digitsVal s.data)) := by
  intro ss
  induction ss with
  | nil =>
    intro _
    simp [renderChars, stringArrayLoop]
  | cons s tl ih =>
    intro hgood
    have hs := hgood s (List.mem_cons_self _ _)
    rw [renderChars_cons, stringArrayLoop_quoted (goodDigitStr_no_quote hs)]
    rw [stoiAsUnsigned_all_digits hs.1 hs.2.1 hs.2.2]
    cases tl with
    | nil => simp [stringArrayLoop]
    | cons t tl' =>
      have htail : stringArrayLoop (',' :: renderChars (t :: tl'))
          = .ok ((t :: tl').map (fun s => digitsVal s.data)) := by
        rw [renderChars_cons, stringArrayLoop_comma,
          ← renderChars_cons,
          ih (fun q hq => hgood q (List.mem_cons_of_mem _ hq))]
      simp only [List.isEmpty_cons, if_neg (by decide : ¬False)]
      simp only [Bool.false_eq_true, if_false]
      rw [htail]
      rfl

/-- The parsing loop aborts with the invalid-identifier failure at the first
entry `stoi` rejects, whatever entries follow it. -/
theorem stringArrayLoop_render_bad :
    ∀ (good : List String) (bad : String) (rest : List String),
      (∀ s ∈ good, goodDigitStr s) → '"' ∉ bad.data →
      stoi bad.data = .error .invalidArgument →
      stringArrayLoop (renderChars (good ++ bad :: rest))
        = .error .invalidIdentifier := by
  intro good
  induction good with
  | nil =>
    intro bad rest _ hq hbad
    rw [List.nil_append, renderChars_cons, stringArrayLoop_quoted hq]
    unfold stoiAsUnsigned
    rw [hbad]
  | cons g gs ih =>
    intro bad rest hgood hq hbad
    have hg := hgood g (List.mem_cons_self _ _)
    rw [List.cons_append, renderChars_cons,
      stringArrayLoop_quoted (goodDigitStr_no_quote hg)]
    rw [stoiAsUnsigned_all_digits hg.1 hg.2.1 hg.2.2]
    have hne : (gs ++ bad :: rest).isEmpty = false := by
      cases gs <;> rfl
    rw [hne]
    simp only [Bool.false_eq_true, if_false]
    cases hrc : gs ++ bad :: rest with
    | nil =>
      cases gs <;> exact absurd hrc (by simp)
    | cons q qs =>
      rw [← hrc]
      have : stringArrayLoop (',' :: renderChars (gs ++ bad :: rest))
          = .error .invalidIdentifier := by
        rw [hrc, renderChars_cons, stringArrayLoop_comma, ← renderChars_cons, ← hrc,
          ih bad rest (fun s hs => hgood s (List.mem_cons_of_mem _ hs)) hq hbad]
      rw [this]

/-- C8: parsing a follows raw value splits the string on quote/comma
boundaries, converts every quoted substring with `stoi` into an unsigned
integer appended in input order, reports the invalid-identifier failure as
soon as a substring has no parsable digits (whatever entries would follow),
and accepts the empty raw value (an empty `[]` array, also through
`setAttribute`) as an empty follows vector without error. -/
theorem stringArrayToUnsignedIntVector_spec :
    (User.stringArrayToUnsignedIntVector "" = .ok []) ∧
    (∀ u, User.setAttribute u "follows" "" = .ok { u with follows := [] }) ∧
    (∀ ss : List String, (∀ s ∈ ss, goodDigitStr s) →
       User.stringArrayToUnsignedIntVector (renderFollowsValue ss)
         = .ok (ss.map (fun s => digitsVal s.data))) ∧
    (∀ (good : List String) (bad : String) (rest : List String),
       (∀ s ∈ good, goodDigitStr s) → '"' ∉ bad.data →
       stoi bad.data = .error .invalidArgument →
       User.stringArrayToUnsignedIntVector
           (renderFollowsValue (good ++ bad :: rest))
         = .error .invalidIdentifier) := by
  have hempty : User.stringArrayToUnsignedIntVector "" = .ok [] := by
    simp [User.stringArrayToUnsignedIntVector, stringArrayLoop]
  refine ⟨hempty, ?_, ?_, ?_⟩
  · intro u
    unfold User.setAttribute
    rw [if_neg (by decide : ¬("follows" : String) = ""), if_pos rfl, hempty]
  · intro ss hgood
    exact stringArrayLoop_render_good ss hgood
  · intro good bad rest hgood hq hbad
    exact stringArrayLoop_render_bad good bad rest hgood hq hbad

/-- Witness for C8: the raw value `"1","23"` parses to `[1, 23]`, and the raw
value `"7","x2","9"` aborts with the invalid-identifier failure. -/
theorem stringArrayToUnsignedIntVector_spec_witness :
    User.stringArrayToUnsignedIntVector (renderFollowsValue ["1", "23"])
      = .ok [1, 23] ∧
    User.stringArrayToUnsignedIntVector
        (renderFollowsValue (["7"] ++ "x2" :: ["9"]))
      = .error .invalidIdentifier :=
  ⟨stringArrayToUnsignedIntVector_spec.2.2.1 ["1", "23"] (by decide),
   stringArrayToUnsignedIntVector_spec.2.2.2 ["7"] "x2" ["9"] (by decide)
     (by decide) rfl⟩

/-- Once the sort flag is set it stays set for the rest of the loop. -/
theorem ingestFlag_true (l : List User) (e : Nat) : ingestFlag l e true = true := by
  induction l generalizing e with
  | nil => rfl
  | cons u rest ih =>
    simp only [ingestFlag, Bool.true_or]
    exact ih (e + 1)

/-- The flag computed from a clear state is set exactly when some record's
id mismatches its expected counter value. -/
theorem ingestFlag_false_iff (l : List User) :
    ∀ e, ingestFlag l e false = true ↔
      ∃ i, ∃ h : i < l.length, (l.get ⟨i, h⟩).id ≠ e + i := by
  induction l with
  | nil =>
    intro e
    simp [ingestFlag]
  | cons u rest ih =>
    intro e
    by_cases hu : u.id = e
    · have hd : decide (u.id ≠ e) = false := by simp [hu]
      simp only [ingestFlag, Bool.false_or, hd]
      rw [ih (e + 1)]
      constructor
      · rintro ⟨i, hi, hne⟩
        exact ⟨i + 1, Nat.succ_lt_succ hi, by
          simpa [Nat.add_comm, Nat.add_assoc, Nat.add_left_comm] using hne⟩
      · rintro ⟨i, hi, hne⟩
        cases i with
        | zero => exact absurd (by simpa using hu) hne
        | succ i' =>
          exact ⟨i', Nat.lt_of_succ_lt_succ hi, by
            simpa [Nat.add_comm, Nat.add_assoc, Nat.add_left_comm] using hne⟩
    · have hd : decide (u.id ≠ e) = true := by simp [hu]
      simp only [ingestFlag, Bool.false_or, hd]
      rw [iff_true_left (ingestFlag_true rest (e + 1))]
      exact ⟨0, Nat.succ_pos _, by simpa using hu⟩

/-- The `userSortingNeeded` flag is set iff some record's id differs from
its 1-based position in arrival order. -/
theorem userSortingNeeded_iff (records : List User) :
    userSortingNeeded records = true ↔
      ∃ i, ∃ h : i < records.length, (records.get ⟨i, h⟩).id ≠ i + 1 := by
  unfold userSortingNeeded
  rw [ingestFlag_false_iff records 1]
  constructor
  · rintro ⟨i, hi, hne⟩
    exact ⟨i, hi, by rwa [Nat.add_comm] at hne⟩
  · rintro ⟨i, hi, hne⟩
    exact ⟨i, hi, by rwa [Nat.add_comm]⟩

/-- Assembly permutes the records (it either sorts or leaves them alone). -/
theorem assembleUsers_perm (records : List User) :
    (assembleUsers records).Perm records := by
  unfold assembleUsers
  split
  · exact List.perm_insertionSort userLE records
  · exact List.Perm.refl records

/-- With pairwise-distinct ids, at most one record matches any given id. -/
theorem filter_short_of_nodup {records F2 : List User} {k : Nat}
    (hnd : (records.map User.id).Nodup)
    (hF2 : F2 = records.filter (fun u => decide (u.id = k))) :
    F2 = [] ∨ ∃ a, F2 = [a] := by
  have hsub : F2.Sublist records := hF2 ▸ List.filter_sublist records
  have hndF : (F2.map User.id).Nodup := (hsub.map User.id).nodup hnd
  cases F2 with
  | nil => exact Or.inl rfl
  | cons a t =>
    cases t with
    | nil => exact Or.inr ⟨a, rfl⟩
    | cons b t' =>
      exfalso
      have ha : a.id = k := by
        have := List.mem_filter.mp (hF2 ▸ List.mem_cons_self a (b :: t'))
        simpa using this.2
      have hb : b.id = k := by
        have hbmem : b ∈ a :: b :: t' := List.mem_cons_of_mem _ (List.mem_cons_self _ _)
        have := List.mem_filter.mp (hF2 ▸ hbmem)
        simpa using this.2
      have hids : ¬a.id = b.id := by
        have h' := hndF
        simp [List.nodup_cons] at h'
        exact h'.1.1
      exact hids (ha.trans hb.symm)

/-- With pairwise-distinct ids, assembly preserves the per-id filters, which
is the observable content of stable sorting. -/
theorem assembleUsers_filter_stable {records : List User}
    (hnd : (records.map User.id).Nodup) (k : Nat) :
    (assembleUsers records).filter (fun u => decide (u.id = k))
      = records.filter (fun u => decide (u.id = k)) := by
  have hperm := (assembleUsers_perm records).filter (fun u => decide (u.id = k))
  rcases filter_short_of_nodup hnd rfl with h2 | ⟨a, h2⟩
  · rw [h2] at hperm ⊢
    exact hperm.eq_nil
  · rw [h2] at hperm ⊢
    exact List.perm_singleton.mp hperm

/-- C4: during ingestion the `userSortingNeeded` flag is set iff some
record's id differs from the `expectedNextId` counter (which starts at 1 and
is incremented after every record); after ingestion, iff the flag is set the
collection is sorted by ascending id (a permutation of the records, sorted
under the `operator<` order), otherwise it is left unchanged; and under the
pairwise-distinct ids that the program's dense-id precondition guarantees,
the sort is stable (the per-id filter of the collection is preserved). -/
theorem assembler_sortFlag_spec (records : List User) :
    (userSortingNeeded records = true ↔
       ∃ i, ∃ h : i < records.length, (records.get ⟨i, h⟩).id ≠ i + 1) ∧
    (userSortingNeeded records = false → assembleUsers records = records) ∧
    (userSortingNeeded records = true →
       (assembleUsers records).Perm records ∧
       List.Sorted userLE (assembleUsers records)) ∧
    ((records.map User.id).Nodup → ∀ k,
       (assembleUsers records).filter (fun u => decide (u.id = k))
         = records.filter (fun u => decide (u.id = k))) := by
  refine ⟨userSortingNeeded_iff records, ?_, ?_, ?_⟩
  · intro h
    unfold assembleUsers
    rw [if_neg]
    simp [h]
  · intro h
    refine ⟨assembleUsers_perm records, ?_⟩
    unfold assembleUsers
    rw [if_pos h]
    exact List.sorted_insertionSort userLE records
  · intro hnd k
    exact assembleUsers_filter_stable hnd k

/-- Witness for C4: the out-of-order three-user records set the flag and get
sorted, preserving the per-id filters. -/
theorem assembler_sortFlag_spec_witness :
    userSortingNeeded wShuffled = true ∧
    (assembleUsers wShuffled).Perm wShuffled ∧
    List.Sorted userLE (assembleUsers wShuffled) ∧
    (assembleUsers wShuffled).filter (fun u => decide (u.id = 2))
      = wShuffled.filter (fun u => decide (u.id = 2)) :=
  ⟨by decide,
   ((assembler_sortFlag_spec wShuffled).2.2.1 (by decide)).1,
   ((assembler_sortFlag_spec wShuffled).2.2.1 (by decide)).2,
   (assembler_sortFlag_spec wShuffled).2.2.2 (by decide) 2⟩

/-- A list whose ids are exactly `1..N` in order is strictly sorted by id. -/
theorem sorted_strict_of_ids_range {l : List User}
    (hids : l.map User.id = List.range' 1 l.length) :
    List.Sorted (fun a b : User => a.id < b.id) l := by
  have hp : List.Pairwise (fun a b : Nat => a < b) (l.map User.id) := by
    rw [hids]
    exact List.pairwise_lt_range' 1 l.length
  exact List.pairwise_map.mp hp

/-- Two strictly-by-id-sorted permutations of each other are equal. -/
theorem eq_of_perm_of_sorted_strict {l m : List User} (hperm : l.Perm m)
    (hl : List.Sorted (fun a b : User => a.id < b.id) l)
    (hm : List.Sorted (fun a b : User => a.id < b.id) m) : l = m := by
  haveI : IsAntisymm User (fun a b : User => a.id < b.id) :=
    ⟨fun a b h1 h2 => absurd (Nat.lt_trans h1 h2) (Nat.lt_irrefl _)⟩
  exact List.eq_of_perm_of_sorted hperm hl hm

/-- Sortedness under the id order plus distinct ids gives strict
sortedness. -/
theorem sorted_strict_of_le_nodup {l : List User}
    (hle : List.Sorted userLE l) (hnd : (l.map User.id).Nodup) :
    List.Sorted (fun a b : User => a.id < b.id) l := by
  have hne : List.Pairwise (fun a b : User => a.id ≠ b.id) l :=
    List.pairwise_map.mp hnd
  exact (hle.and hne).imp (fun h => Nat.lt_of_le_of_ne h.1 h.2)

/-- When the sort flag stays clear, the arrival ids are exactly `1..N` in
order. -/
theorem ids_range_of_flag_false {l : List User}
    (hflag : userSortingNeeded l = false) :
    l.map User.id = List.range' 1 l.length := by
  have hno : ¬∃ i, ∃ h : i < l.length, (l.get ⟨i, h⟩).id ≠ i + 1 := by
    intro hex
    rw [← userSortingNeeded_iff] at hex
    rw [hflag] at hex
    exact Bool.false_ne_true hex
  push_neg at hno
  apply List.ext_getElem
  · rw [List.length_map, List.length_range']
  · intro i h1 h2
    rw [List.getElem_map, List.getElem_range']
    have := hno i (by simpa using h1)
    simpa [Nat.add_comm] using this

/-- Records arriving with ids exactly `1..N` in order are left unchanged by
assembly. -/
theorem assembleUsers_eq_self_of_ids_range {l : List User}
    (hids : l.map User.id = List.range' 1 l.length) :
    assembleUsers l = l := by
  unfold assembleUsers
  rw [if_neg]
  rw [Bool.not_eq_true, Bool.eq_false_iff]
  intro htrue
  rcases (userSortingNeeded_iff l).mp htrue with ⟨i, hi, hne⟩
  apply hne
  have h1 : (l.map User.id)[i]? = some (1 + i) := by
    rw [hids]
    simpa using List.getElem?_range' 1 1 (m := i) (n := l.length) hi
  rw [List.getElem?_map, List.getElem?_eq_getElem hi] at h1
  simpa [Nat.add_comm, List.get_eq_getElem] using h1

/-- Assembling any permutation of an id-ordered record list yields that
id-ordered list. -/
theorem assembleUsers_of_perm_ids_range {shuffled inOrder : List User}
    (hperm : shuffled.Perm inOrder)
    (hids : inOrder.map User.id = List.range' 1 inOrder.length) :
    assembleUsers shuffled = inOrder := by
  have hsortedIn := sorted_strict_of_ids_range hids
  have hndIn : (inOrder.map User.id).Nodup := by
    rw [hids]
    exact List.nodup_range' 1 inOrder.length
  cases hflag : userSortingNeeded shuffled with
  | false =>
    rw [assembleUsers_eq_self_of_ids_range (ids_range_of_flag_false hflag)]
    exact eq_of_perm_of_sorted_strict hperm
      (sorted_strict_of_ids_range (ids_range_of_flag_false hflag)) hsortedIn
  | true =>
    unfold assembleUsers
    rw [if_pos hflag]
    have hperm2 : (List.insertionSort userLE shuffled).Perm inOrder :=
      (List.perm_insertionSort userLE shuffled).trans hperm
    have hnd2 : ((List.insertionSort userLE shuffled).map User.id).Nodup :=
      ((hperm2.map User.id).nodup_iff).mpr hndIn
    exact eq_of_perm_of_sorted_strict hperm2
      (sorted_strict_of_le_nodup (List.sorted_insertionSort userLE shuffled) hnd2)
      hsortedIn

/-- C3: for records whose ids are a permutation of the dense set `1..N`,
building the network from any arrival permutation of those records yields
exactly the same network (user collection, relationship matrix, user names)
as the in-id-order arrival, and hence identical follower/mutual query
results for every id. -/
theorem build_orderInsensitive (shuffled inOrder : List User)
    (hperm : shuffled.Perm inOrder)
    (hids : inOrder.map User.id = List.range' 1 inOrder.length) :
    SocialNetwork.build shuffled = SocialNetwork.build inOrder ∧
    ∀ q, (SocialNetwork.build shuffled).map
            (fun net => net.getFollowerAndMutualsFromId q)
        = (SocialNetwork.build inOrder).map
            (fun net => net.getFollowerAndMutualsFromId q) := by
  have hasmSh : assembleUsers shuffled = inOrder :=
    assembleUsers_of_perm_ids_range hperm hids
  have hasmIn : assembleUsers inOrder = inOrder :=
    assembleUsers_eq_self_of_ids_range hids
  have hlen : shuffled.length = inOrder.length := hperm.length_eq
  have hall : shuffled.all User.isValid = inOrder.all User.isValid := by
    rw [Bool.eq_iff_iff, List.all_eq_true, List.all_eq_true]
    constructor
    · intro h x hx
      exact h x (hperm.mem_iff.mpr hx)
    · intro h x hx
      exact h x (hperm.mem_iff.mp hx)
  have hbuild : SocialNetwork.build shuffled = SocialNetwork.build inOrder := by
    unfold SocialNetwork.build
    rw [hasmSh, hasmIn, hlen, hall]
  exact ⟨hbuild, fun q => by rw [hbuild]⟩

/-- Witness for C3: the shuffled three-user records build the same network
as the in-order ones. -/
theorem build_orderInsensitive_witness :
    SocialNetwork.build wShuffled = SocialNetwork.build wRecords :=
  (build_orderInsensitive wShuffled wRecords (by decide) (by decide)).1

/-- The follows-entry writes preserve the row length. -/
theorem setFollows_length {n : Nat} :
    ∀ (fs : List Nat) (row row' : List Bool),
      setFollows n row fs = some row' → row'.length = row.length := by
  intro fs
  induction fs with
  | nil =>
    intro row row' h
    simp only [setFollows] at h
    cases h
    rfl
  | cons g gs ih =>
    intro row row' h
    simp only [setFollows] at h
    split at h
    · rw [ih _ _ h, List.length_set]
    · exact Option.noConfusion h

/-- A cell of the updated row is set exactly for the written indices or
where the initial row already had it set. -/
theorem setFollows_lookup {n : Nat} :
    ∀ (fs : List Nat) (row row' : List Bool), row.length = n →
      setFollows n row fs = some row' →
      ∀ f, 1 ≤ f → f ≤ n →
        (row'[f - 1]? = some true ↔ f ∈ fs ∨ row[f - 1]? = some true) := by
  intro fs
  induction fs with
  | nil =>
    intro row row' _ h f _ _
    simp only [setFollows] at h
    cases h
    simp
  | cons g gs ih =>
    intro row row' hlen h f hf1 hf2
    simp only [setFollows] at h
    split at h
    · rename_i hg
      have hlen2 : (row.set (g - 1) true).length = n := by
        rw [List.length_set, hlen]
      rw [ih _ _ hlen2 h f hf1 hf2]
      by_cases hfg : f = g
      · subst hfg
        have hset : (row.set (f - 1) true)[f - 1]? = some true := by
          rw [List.getElem?_set]
          rw [if_pos rfl, if_pos (by rw [hlen]; exact hg.2)]
        simp [hset, List.mem_cons]
      · have hidx : g - 1 ≠ f - 1 := by omega
        rw [List.getElem?_set, if_neg hidx]
        simp [List.mem_cons, hfg]
    · exact Option.noConfusion h

/-- A successfully built row has length `n` and holds `true` exactly at the
indices `f - 1` for `f` in the user's follows list. -/
theorem buildRow_some {n : Nat} {u : User} {row : List Bool}
    (h : buildRow n u = some row) :
    row.length = n ∧
    ∀ f, 1 ≤ f → f ≤ n → (row[f - 1]? = some true ↔ f ∈ u.follows) := by
  unfold buildRow at h
  constructor
  · rw [setFollows_length _ _ _ h, List.length_replicate]
  · intro f hf1 hf2
    rw [setFollows_lookup u.follows _ _ (List.length_replicate _ _) h f hf1 hf2]
    have : (List.replicate n false)[f - 1]? = some false := by
      rw [List.getElem?_replicate, if_pos (by omega)]
    simp [this]

/-- A successfully built matrix has one row per user, each row built from
the user at the same position. -/
theorem buildMatrix_some {n : Nat} :
    ∀ (us : List User) (m : List (List Bool)), buildMatrix n us = some m →
      m.length = us.length ∧
      ∀ (i : Nat) (u : User), us[i]? = some u → m[i]? = buildRow n u := by
  intro us
  induction us with
  | nil =>
    intro m h
    simp only [buildMatrix] at h
    cases h
    exact ⟨rfl, fun i u h => by simp at h⟩
  | cons u us ih =>
    intro m h
    simp only [buildMatrix] at h
    cases hr : buildRow n u with
    | none => rw [hr] at h; exact Option.noConfusion h
    | some row =>
      rw [hr] at h
      cases hm : buildMatrix n us with
      | none => rw [hm] at h; exact Option.noConfusion h
      | some rows =>
        rw [hm] at h
        cases h
        obtain ⟨hlen, hcorr⟩ := ih rows hm
        refine ⟨by simp [hlen], ?_⟩
        intro i v hv
        cases i with
        | zero =>
          simp only [List.getElem?_cons_zero] at hv ⊢
          cases hv
          exact hr.symm
        | succ j =>
          simp only [List.getElem?_cons_succ] at hv ⊢
          exact hcorr j v hv

/-- Characterization of a successful `SocialNetwork` construction in terms
of its ingredients. -/
theorem build_char {records : List User} {net : SocialNetwork}
    (h : SocialNetwork.build records = some net) :
    net.numUsers = records.length ∧
    net.users = assembleUsers records ∧
    buildMatrix records.length (assembleUsers records)
      = some net.followerRelationShips ∧
    records.all User.isValid = true ∧
    net.userNames = (assembleUsers records).map User.name := by
  unfold SocialNetwork.build at h
  split at h
  · rename_i hall
    cases hm : buildMatrix records.length (assembleUsers records) with
    | none => rw [hm] at h; exact Option.noConfusion h
    | some m =>
      rw [hm] at h
      cases h
      exact ⟨rfl, rfl, by rw [← hm], hall, rfl⟩
  · exact Option.noConfusion h

/-- The stored user collection has one entry per record. -/
theorem build_users_length {records : List User} {net : SocialNetwork}
    (h : SocialNetwork.build records = some net) :
    net.users.length = records.length := by
  rw [(build_char h).2.1]
  exact (assembleUsers_perm records).length_eq

/-- A successfully built relationship matrix is square of size
`numUsers`. -/
theorem build_matrix_dims {records : List User} {net : SocialNetwork}
    (h : SocialNetwork.build records = some net) :
    net.followerRelationShips.length = net.numUsers ∧
    ∀ (i : Nat) (row : List Bool), net.followerRelationShips[i]? = some row →
      row.length = net.numUsers := by
  obtain ⟨hnum, husers, hmat, _, _⟩ := build_char h
  obtain ⟨hlen, hcorr⟩ := buildMatrix_some _ _ hmat
  have husl : (assembleUsers records).length = records.length :=
    (assembleUsers_perm records).length_eq
  constructor
  · rw [hlen, husl, hnum]
  · intro i row hrow
    have hi : i < net.followerRelationShips.length :=
      (List.getElem?_eq_some.mp hrow).1
    have hi2 : i < (assembleUsers records).length := by
      rw [← hlen]
      exact hi
    have hcor := hcorr i _ (List.getElem?_eq_getElem hi2)
    rw [hrow] at hcor
    rw [hnum]
    exact (buildRow_some hcor.symm).1

/-- The positivity assertion of `isFollowing` fires exactly on a zero id. -/
theorem isFollowing_assertViolation {net : SocialNetwork} {a b : Nat}
    (h : a = 0 ∨ b = 0) : net.isFollowing a b = .assertViolation := by
  unfold SocialNetwork.isFollowing
  rw [if_neg]
  rcases h with h | h <;> omega

/-- On a built network, `isFollowing` returns a boolean for any two ids in
`[1, numUsers]`. -/
theorem isFollowing_ok_of_build {records : List User} {net : SocialNetwork}
    (hb : SocialNetwork.build records = some net) {a b : Nat}
    (ha1 : 1 ≤ a) (ha2 : a ≤ net.numUsers) (hb1 : 1 ≤ b)
    (hb2 : b ≤ net.numUsers) :
    ∃ v, net.isFollowing a b = .ok v := by
  obtain ⟨hrows, hcols⟩ := build_matrix_dims hb
  have hia : a - 1 < net.followerRelationShips.length := by omega
  obtain ⟨row, hrow⟩ : ∃ row, net.followerRelationShips[a - 1]? = some row :=
    ⟨_, List.getElem?_eq_getElem hia⟩
  have hrl : row.length = net.numUsers := hcols _ _ hrow
  have hib : b - 1 < row.length := by omega
  obtain ⟨v, hv⟩ : ∃ v, row[b - 1]? = some v :=
    ⟨_, List.getElem?_eq_getElem hib⟩
  refine ⟨v, ?_⟩
  unfold SocialNetwork.isFollowing
  rw [if_pos ⟨by omega, by omega⟩]
  simp only [hrow, hv]

/-- On a built network, positive ids beyond `numUsers` pass the assertion
and hit the unchecked out-of-bounds vector access. -/
theorem isFollowing_outOfBounds_of_build {records : List User}
    {net : SocialNetwork} (hb : SocialNetwork.build records = some net)
    {a b : Nat} (ha1 : 1 ≤ a) (hb1 : 1 ≤ b)
    (hout : net.numUsers < a ∨ net.numUsers < b) :
    net.isFollowing a b = .outOfBounds := by
  obtain ⟨hrows, hcols⟩ := build_matrix_dims hb
  unfold SocialNetwork.isFollowing
  rw [if_pos ⟨by omega, by omega⟩]
  by_cases hcase : net.numUsers < a
  · simp only [List.getElem?_eq_none
      (show net.followerRelationShips.length ≤ a - 1 by omega)]
  · have hbig : net.numUsers < b := by omega
    have hia : a - 1 < net.followerRelationShips.length := by omega
    obtain ⟨row, hrow⟩ : ∃ row, net.followerRelationShips[a - 1]? = some row :=
      ⟨_, List.getElem?_eq_getElem hia⟩
    simp only [hrow,
      List.getElem?_eq_none (show row.length ≤ b - 1 by rw [hcols _ _ hrow]; omega)]

/-- C2: on a network built from records with dense ids `1..N`, for the user
at 0-based position `i` of the (sorted) collection and any id `f` in
`[1, N]`, `isFollowing (i+1) f` returns `true` exactly when `f` occurs in
that user's follows list, and returns `false` (an actual returned boolean,
not an abort) for every other id in `[1, N]`. -/
theorem isFollowing_roundTrip {records : List User} {net : SocialNetwork}
    (hb : SocialNetwork.build records = some net)
    (hperm : (records.map User.id).Perm (List.range' 1 records.length))
    (i : Nat) (hi : i < net.users.length) (f : Nat) (hf1 : 1 ≤ f)
    (hf2 : f ≤ net.numUsers) :
    (net.isFollowing (i + 1) f = .ok true ↔
      f ∈ (net.users.get ⟨i, hi⟩).follows) ∧
    (f ∉ (net.users.get ⟨i, hi⟩).follows →
      net.isFollowing (i + 1) f = .ok false) := by
  obtain ⟨hnum, husers, hmat, _, _⟩ := build_char hb
  obtain ⟨hmlen, hcorr⟩ := buildMatrix_some _ _ hmat
  have hi2 : i < (assembleUsers records).length := by
    rw [← husers]
    exact hi
  have hu : (assembleUsers records)[i]? = some (net.users.get ⟨i, hi⟩) := by
    rw [List.getElem?_eq_getElem hi2]
    congr 1
    simp only [List.get_eq_getElem]
    congr 1
    rw [husers]
  have hrowEq := hcorr i _ hu
  have hirow : i < net.followerRelationShips.length := by
    rw [hmlen]
    exact hi2
  obtain ⟨row, hrow⟩ : ∃ row, net.followerRelationShips[i]? = some row :=
    ⟨_, List.getElem?_eq_getElem hirow⟩
  rw [hrow] at hrowEq
  obtain ⟨hrl, hmem⟩ := buildRow_some hrowEq.symm
  have hfn : f ≤ records.length := by
    rw [← hnum]
    exact hf2
  have hv := hmem f hf1 hfn
  have hbv : f - 1 < row.length := by
    rw [hrl]
    omega
  unfold SocialNetwork.isFollowing
  rw [if_pos ⟨by omega, by omega⟩]
  have hsimp : i + 1 - 1 = i := by omega
  rw [hsimp, hrow]
  obtain ⟨v, hvv⟩ : ∃ v, row[f - 1]? = some v :=
    ⟨_, List.getElem?_eq_getElem hbv⟩
  simp only [hvv]
  rw [hvv] at hv
  constructor
  · constructor
    · intro hok
      apply hv.mp
      cases v
      · simp at hok
      · rfl
    · intro hmemf
      have hvt := hv.mpr hmemf
      cases hvt
      rfl
  · intro hnot
    cases v with
    | false => rfl
    | true => exact absurd (hv.mp rfl) hnot

/-- C6 counterexample: on the one-user network, the call
`isFollowing(2, 1)` has an out-of-range first id (2 > numUsers = 1), yet it
does not fail the contract assertion — it passes the positivity check and
reaches the unchecked out-of-bounds `vector::operator[]` access (undefined
behaviour in the C++), so the claim that every out-of-range id aborts as a
contract violation is false. -/
theorem isFollowing_contract_cex :
    SocialNetwork.build [oneUser] = some oneNet ∧
    oneNet.isFollowing 2 1 = QueryResult.outOfBounds ∧
    QueryResult.outOfBounds ≠ QueryResult.assertViolation :=
  ⟨by decide, by decide, by decide⟩

/-- C6 amended: `isFollowing` requires both arguments to be at least 1 and
returns matrix cell `(followerID-1, followedID-1)`; a call with an id of 0
aborts as a contract violation, ids in `[1, N]` return the cell value, but an
id greater than `N` passes the assertion and performs an unchecked
out-of-bounds access (undefined behaviour), not a contract abort. -/
theorem isFollowing_contract_amended {records : List User}
    {net : SocialNetwork} (hb : SocialNetwork.build records = some net)
    (a b : Nat) :
    ((a = 0 ∨ b = 0) → net.isFollowing a b = .assertViolation) ∧
    (1 ≤ a → a ≤ net.numUsers → 1 ≤ b → b ≤ net.numUsers →
       ∃ v, net.isFollowing a b = .ok v ∧
         (net.followerRelationShips[a - 1]?.bind fun row => row[b - 1]?)
           = some v) ∧
    (1 ≤ a → 1 ≤ b → (net.numUsers < a ∨ net.numUsers < b) →
       net.isFollowing a b = .outOfBounds) := by
  refine ⟨isFollowing_assertViolation, ?_, ?_⟩
  · intro h1 h2 h3 h4
    obtain ⟨hrows, hcols⟩ := build_matrix_dims hb
    have hia : a - 1 < net.followerRelationShips.length := by omega
    obtain ⟨row, hrow⟩ : ∃ row, net.followerRelationShips[a - 1]? = some row :=
      ⟨_, List.getElem?_eq_getElem hia⟩
    have hrl : row.length = net.numUsers := hcols _ _ hrow
    have hib : b - 1 < row.length := by omega
    obtain ⟨v, hv⟩ : ∃ v, row[b - 1]? = some v :=
      ⟨_, List.getElem?_eq_getElem hib⟩
    refine ⟨v, ?_, ?_⟩
    · unfold SocialNetwork.isFollowing
      rw [if_pos ⟨by omega, by omega⟩]
      simp only [hrow, hv]
    · rw [hrow]
      simpa using hv
  · intro h1 h2 h3
    exact isFollowing_outOfBounds_of_build hb h1 h2 h3

/-- Witness for the amended C6 on the one-user network: id 0 fails the
assertion, ids in range return the cell, id 2 hits the unchecked access. -/
theorem isFollowing_contract_amended_witness :
    oneNet.isFollowing 0 1 = QueryResult.assertViolation ∧
    (∃ v, oneNet.isFollowing 1 1 = QueryResult.ok v ∧
       (oneNet.followerRelationShips[1 - 1]?.bind fun row => row[1 - 1]?)
         = some v) ∧
    oneNet.isFollowing 2 1 = QueryResult.outOfBounds :=
  ⟨(isFollowing_contract_amended (by decide :
      SocialNetwork.build [oneUser] = some oneNet) 0 1).1 (Or.inl rfl),
   (isFollowing_contract_amended (by decide :
      SocialNetwork.build [oneUser] = some oneNet) 1 1).2.1
     (by decide) (by decide) (by decide) (by decide),
   (isFollowing_contract_amended (by decide :
      SocialNetwork.build [oneUser] = some oneNet) 2 1).2.2
     (by decide) (by decide) (Or.inl (by decide))⟩

/-- Once the scan loop has aborted, it stays aborted. -/
theorem famFold_none {net : SocialNetwork} {currID : Nat} :
    ∀ L : List Nat, L.foldl (famStep net currID) none = none := by
  intro L
  induction L with
  | nil => rfl
  | cons o L ih =>
    simp only [List.foldl_cons]
    exact ih

/-- One scan-loop iteration never appends the scanned user's own id. -/
theorem famStep_no_self {net : SocialNetwork} {currID : Nat}
    {fs0 ms0 fs1 ms1 : List Nat} {o : Nat}
    (hstep : famStep net currID (some (fs0, ms0)) o = some (fs1, ms1))
    (hf : currID ∉ fs0) (hm : currID ∉ ms0) :
    currID ∉ fs1 ∧ currID ∉ ms1 := by
  simp only [famStep] at hstep
  by_cases ho : currID ≠ o
  · rw [if_pos ho] at hstep
    cases h1 : net.isFollowing o currID with
    | ok v =>
      rw [h1] at hstep
      cases v
      · cases hstep
        exact ⟨hf, hm⟩
      · cases h2 : net.isFollowing currID o with
        | ok w =>
          rw [h2] at hstep
          cases w
          · cases hstep
            refine ⟨?_, hm⟩
            intro hmem
            rcases List.mem_append.mp hmem with h | h
            · exact hf h
            · simp at h
              exact ho h
          · cases hstep
            constructor
            · intro hmem
              rcases List.mem_append.mp hmem with h | h
              · exact hf h
              · simp at h
                exact ho h
            · intro hmem
              rcases List.mem_append.mp hmem with h | h
              · exact hm h
              · simp at h
                exact ho h
        | assertViolation =>
          rw [h2] at hstep
          exact Option.noConfusion hstep
        | outOfBounds =>
          rw [h2] at hstep
          exact Option.noConfusion hstep
    | assertViolation =>
      rw [h1] at hstep
      exact Option.noConfusion hstep
    | outOfBounds =>
      rw [h1] at hstep
      exact Option.noConfusion hstep
  · rw [if_neg ho] at hstep
    cases hstep
    exact ⟨hf, hm⟩

/-- The scan loop never appends the scanned user's own id. -/
theorem famFold_no_self {net : SocialNetwork} {currID : Nat} :
    ∀ (L : List Nat) (fs0 ms0 fs ms : List Nat), currID ∉ fs0 → currID ∉ ms0 →
      L.foldl (famStep net currID) (some (fs0, ms0)) = some (fs, ms) →
      currID ∉ fs ∧ currID ∉ ms := by
  intro L
  induction L with
  | nil =>
    intro fs0 ms0 fs ms hf hm h
    simp only [List.foldl_nil] at h
    cases h
    exact ⟨hf, hm⟩
  | cons o L ih =>
    intro fs0 ms0 fs ms hf hm h
    simp only [List.foldl_cons] at h
    cases hstep : famStep net currID (some (fs0, ms0)) o with
    | none =>
      rw [hstep, famFold_none] at h
      exact Option.noConfusion h
    | some acc =>
      rw [hstep] at h
      obtain ⟨fs1, ms1⟩ := acc
      obtain ⟨hf1, hm1⟩ := famStep_no_self hstep hf hm
      exact ih fs1 ms1 fs ms hf1 hm1 h

/-- C5: on a built network, a user's own id never appears in their followers
or mutuals list — even when their follows list claims a self-follow, since
the scan loop skips `otherID == currID` before consulting the matrix. -/
theorem self_not_in_followers_or_mutuals {records : List User}
    {net : SocialNetwork} {currID : Nat} {fs ms : List Nat}
    (hb : SocialNetwork.build records = some net)
    (h1 : 1 ≤ currID) (h2 : currID ≤ net.numUsers)
    (hq : net.getFollowerAndMutualsFromId currID = some (fs, ms)) :
    currID ∉ fs ∧ currID ∉ ms := by
  unfold SocialNetwork.getFollowerAndMutualsFromId at hq
  exact famFold_no_self _ [] [] fs ms (by simp) (by simp) hq

/-- Witness for C5: the network of one self-following user yields empty
followers and mutuals for that user. -/
theorem self_not_in_followers_or_mutuals_witness :
    ∃ fs ms, sNet.getFollowerAndMutualsFromId 1 = some (fs, ms) ∧
      1 ∉ fs ∧ 1 ∉ ms :=
  ⟨[], [], by decide,
   self_not_in_followers_or_mutuals
     (by decide : SocialNetwork.build [sUser] = some sNet)
     (by decide) (by decide)
     (by decide : sNet.getFollowerAndMutualsFromId 1 = some ([], []))⟩

/-- The scan loop appends exactly the ids that pass the follower test, in
scan order, and of those exactly the ones that pass the mutual test. -/
theorem famFold_spec {net : SocialNetwork} {currID : Nat} :
    ∀ L : List Nat,
      (∀ o ∈ L, o ≠ currID →
        ∃ v, net.isFollowing o currID = .ok v ∧
          (v = true → ∃ w, net.isFollowing currID o = .ok w)) →
      ∀ fs0 ms0 : List Nat,
        L.foldl (famStep net currID) (some (fs0, ms0)) =
          some (fs0 ++ L.filter (fun o =>
                  decide (o ≠ currID) &&
                  decide (net.isFollowing o currID = .ok true)),
                ms0 ++ (L.filter (fun o =>
                  decide (o ≠ currID) &&
                  decide (net.isFollowing o currID = .ok true))).filter
                    (fun o => decide (net.isFollowing currID o = .ok true))) := by
  intro L
  induction L with
  | nil =>
    intro _ fs0 ms0
    simp
  | cons o L ih =>
    intro hL fs0 ms0
    have hLtail : ∀ o ∈ L, o ≠ currID →
        ∃ v, net.isFollowing o currID = .ok v ∧
          (v = true → ∃ w, net.isFollowing currID o = .ok w) :=
      fun q hq => hL q (List.mem_cons_of_mem _ hq)
    simp only [List.foldl_cons]
    by_cases ho : o = currID
    · have hp : (decide (o ≠ currID) &&
          decide (net.isFollowing o currID = .ok true)) = false := by
        simp [ho]
      have hstep : famStep net currID (some (fs0, ms0)) o = some (fs0, ms0) := by
        simp only [famStep]
        rw [if_neg (by simp [ho])]
      rw [hstep, ih hLtail fs0 ms0, List.filter_cons, hp]
      simp
    · obtain ⟨v, hv, hw⟩ := hL o (List.mem_cons_self _ _) ho
      cases v with
      | false =>
        have hp : (decide (o ≠ currID) &&
            decide (net.isFollowing o currID = .ok true)) = false := by
          simp [hv]
        have hstep : famStep net currID (some (fs0, ms0)) o
            = some (fs0, ms0) := by
          simp only [famStep]
          rw [if_pos (fun e => ho e.symm), hv]
        rw [hstep, ih hLtail fs0 ms0, List.filter_cons, hp]
        simp
      | true =>
        have hp : (decide (o ≠ currID) &&
            decide (net.isFollowing o currID = .ok true)) = true := by
          simp [hv, ho]
        obtain ⟨w, hwv⟩ := hw rfl
        cases w with
        | true =>
          have hq : decide (net.isFollowing currID o = .ok true) = true := by
            simp [hwv]
          have hstep : famStep net currID (some (fs0, ms0)) o
              = some (fs0 ++ [o], ms0 ++ [o]) := by
            simp only [famStep]
            rw [if_pos (fun e => ho e.symm), hv, hwv]
          rw [hstep, ih hLtail (fs0 ++ [o]) (ms0 ++ [o]),
            List.filter_cons, hp]
          simp only [if_true, List.filter_cons, hq]
          simp [List.append_assoc]
        | false =>
          have hq : decide (net.isFollowing currID o = .ok true) = false := by
            simp [hwv]
          have hstep : famStep net currID (some (fs0, ms0)) o
              = some (fs0 ++ [o], ms0) := by
            simp only [famStep]
            rw [if_pos (fun e => ho e.symm), hv, hwv]
          rw [hstep, ih hLtail (fs0 ++ [o]) ms0, List.filter_cons, hp]
          simp only [if_true, List.filter_cons, hq]
          simp [List.append_assoc]

/-- C1: on a network built from records with dense ids `1..N`, for every id
in `[1, N]` the follower/mutual query returns exactly the ids `o` in
`[1, N]` with `o ≠ id` and `isFollowing(o, id)` true, in ascending scan
order, and as mutuals exactly those followers with `isFollowing(id, o)`
additionally true, in the same order. -/
theorem getFollowerAndMutualsFromId_spec {records : List User}
    {net : SocialNetwork} (hb : SocialNetwork.build records = some net)
    (hperm : (records.map User.id).Perm (List.range' 1 records.length))
    {currID : Nat} (h1 : 1 ≤ currID) (h2 : currID ≤ net.numUsers) :
    net.getFollowerAndMutualsFromId currID =
      some ((List.range' 1 net.numUsers).filter (fun o =>
              decide (o ≠ currID) &&
              decide (net.isFollowing o currID = .ok true)),
            ((List.range' 1 net.numUsers).filter (fun o =>
              decide (o ≠ currID) &&
              decide (net.isFollowing o currID = .ok true))).filter
                (fun o => decide (net.isFollowing currID o = .ok true))) := by
  unfold SocialNetwork.getFollowerAndMutualsFromId
  have hL : ∀ o ∈ List.range' 1 net.numUsers, o ≠ currID →
      ∃ v, net.isFollowing o currID = .ok v ∧
        (v = true → ∃ w, net.isFollowing currID o = .ok w) := by
    intro o hmem _
    have hob := List.mem_range'_1.mp hmem
    obtain ⟨v, hv⟩ := isFollowing_ok_of_build hb hob.1 (by omega) h1 h2
    exact ⟨v, hv, fun _ => isFollowing_ok_of_build hb h1 h2 hob.1 (by omega)⟩
  have hfold := famFold_spec (List.range' 1 net.numUsers) hL [] []
  simpa using hfold

/-- Witness for C1: in the spec's three-user scenario, user 1 has followers
`[2]` and mutuals `[2]`. -/
theorem getFollowerAndMutualsFromId_spec_witness :
    wNet.getFollowerAndMutualsFromId 1 = some ([2], [2]) :=
  (getFollowerAndMutualsFromId_spec
     (by decide : SocialNetwork.build wRecords = some wNet)
     (by decide) (by decide) (by decide)).trans (by decide)

/-- Witness for C2: in the three-user scenario, the user at position 0
follows id 2, and for id 1 (not in their follows list) the query returns the
boolean `false`. -/
theorem isFollowing_roundTrip_witness :
    (wNet.isFollowing 1 2 = QueryResult.ok true ↔
      2 ∈ (wNet.users.get ⟨0, by decide⟩).follows) ∧
    wNet.isFollowing 1 1 = QueryResult.ok false :=
  ⟨(isFollowing_roundTrip
      (by decide : SocialNetwork.build wRecords = some wNet)
      (by decide) 0 (by decide) 2 (by decide) (by decide)).1,
   (isFollowing_roundTrip
      (by decide : SocialNetwork.build wRecords = some wNet)
      (by decide) 0 (by decide) 1 (by decide) (by decide)).2 (by decide)⟩
